import Mathlib

/-!
Shallow embedding of the `risp` interpreter (a small Lisp: reader, object
model with chained environments, and an eval/apply evaluator), translated
from the Rust sources `src/object.rs`, `src/evaluator.rs`, `src/reader.rs`
and `src/main.rs`.

Modelling conventions:
* Rust `i64` is modelled as `Int`. The interpreter performs unchecked
  arithmetic (`sum += val`, `number * 10 + digit`); none of the verified
  claims depends on 64-bit overflow behaviour, so the arithmetic is kept
  unbounded rather than wrapped modulo 2^64.
* `Rc<RefCell<Environment>>` references are modelled as indices (`Nat`)
  into an explicit store `EnvState` holding every frame ever created;
  `Environment::new_child` appends a frame, `define` updates one frame in
  place, `get` is read-only.
* A Rust panic (`unwrap` of `None`, out-of-bounds index) is the `fault`
  outcome; it is distinct from the `err` outcome, which models the `Err`
  side of the Rust `Result<Object, Object>`.
* The evaluator recurses through values (lambda bodies), so `eval` takes a
  fuel parameter; `spin` marks fuel exhaustion and is a model artifact that
  never occurs in any theorem's conclusion.
* `HashMap<String, Object>` is an association list; `insert` prepends and
  removes the old binding, matching the map semantics of `HashMap::insert`.
-/

namespace Risp

/-- The closed set of native procedures registered by `Environment::new`
(`src/object.rs`): `+`, `-`, `*`, `list`, `cons`, `car`. Rust stores a
function pointer; the Lean model stores this tag and dispatches through
`applyNative`. -/
inductive NativeFn where
  | plus
  | minus
  | multiply
  | list
  | cons
  | car
deriving DecidableEq

mutual
/-- Rust `Object` from `src/object.rs` (lines 95-103): the universal value type
with variants Nil, Integer, Symbol, List, Callable, Error. -/
inductive Obj where
  | nil : Obj
  | integer : Int → Obj
  | symbol : String → Obj
  | list : List Obj → Obj
  | callable : Funct → Obj
  | error : String → Obj

/-- Rust `Function` from `src/object.rs` (lines 64-67): a native builtin or a
`Lambda(parameters, body, env)` closure. The environment is an index into
the `EnvState` store. -/
inductive Funct where
  | native : NativeFn → Funct
  | lambda : List Obj → List Obj → Nat → Funct
end

/-- Rust `Object::new_error` (`src/object.rs`, lines 106-108). -/
def Obj.newError (message : String) : Obj := Obj.error message

/-- Rust `Object::has_symbol_value` (`src/object.rs`, lines 110-115). -/
def Obj.hasSymbolValue (o : Obj) (s : String) : Option Bool :=
  match o with
  | Obj.symbol sym => some (sym == s)
  | _ => none

/-- True exactly on the `Integer` variant. -/
def Obj.isIntegerObj : Obj → Bool
  | Obj.integer _ => true
  | _ => false

/-! Native procedures (`src/object.rs`, lines 162-237) -/

/-- The accumulating loop of `plus`: fold the arguments into `sum` starting
from the given accumulator; on the first non-Integer argument the Rust code
does `return Ok(Object::Nil)` (line 168). -/
def plusGo (sum : Int) : List Obj → Except Obj Obj
  | [] => Except.ok (Obj.integer sum)
  | Obj.integer v :: rest => plusGo (sum + v) rest
  | _ :: _ => Except.ok Obj.nil

/-- Rust `plus` (`src/object.rs`, lines 162-172): left fold starting at 0. -/
def plusFn (args : List Obj) : Except Obj Obj := plusGo 0 args

/-- The subtracting loop of `minus`: on a non-Integer argument the Rust
code does `return Err(Object::Nil)` (line 189). -/
def minusGo (sum : Int) : List Obj → Except Obj Obj
  | [] => Except.ok (Obj.integer sum)
  | Obj.integer v :: rest => minusGo (sum - v) rest
  | _ :: _ => Except.error Obj.nil

/-- Rust `minus` (`src/object.rs`, lines 174-194): fewer than 2 arguments is
`Err(Error("not enough arguments"))`; a non-Integer first argument is
`Err(Error("argument has wrong type"))`; then fold-subtract the rest. -/
def minusFn (args : List Obj) : Except Obj Obj :=
  match args with
  | [] => Except.error (Obj.newError "not enough arguments")
  | [_] => Except.error (Obj.newError "not enough arguments")
  | first :: rest =>
    match first with
    | Obj.integer f => minusGo f rest
    | _ => Except.error (Obj.newError "argument has wrong type")

/-- The multiplying loop of `multiply`: on a non-Integer argument the Rust
code does `return Err(Object::Nil)` (line 202). -/
def mulGo (sum : Int) : List Obj → Except Obj Obj
  | [] => Except.ok (Obj.integer sum)
  | Obj.integer v :: rest => mulGo (sum * v) rest
  | _ :: _ => Except.error Obj.nil

/-- Rust `multiply` (`src/object.rs`, lines 196-206): left fold starting at 1. -/
def multiplyFn (args : List Obj) : Except Obj Obj := mulGo 1 args

/-- Rust `list` (`src/object.rs`, lines 208-211): wraps the arguments verbatim. -/
def listFn (args : List Obj) : Except Obj Obj := Except.ok (Obj.list args)

/-- Rust `cons` (`src/object.rs`, lines 213-220): exactly two arguments,
returned as a 2-element List. -/
def consFn (args : List Obj) : Except Obj Obj :=
  if args.length == 2 then Except.ok (Obj.list args)
  else Except.error (Obj.newError "wrong number of arguments")

/-- Rust `car` (`src/object.rs`, lines 222-237): exactly one argument, which
must be a non-empty List; returns its first element. -/
def carFn (args : List Obj) : Except Obj Obj :=
  match args with
  | [a] =>
    match a with
    | Obj.list items =>
      match items with
      | [] => Except.error (Obj.newError "empty list")
      | x :: _ => Except.ok x
    | _ => Except.error (Obj.newError "argument has wrong type")
  | _ => Except.error (Obj.newError "wrong number of arguments")

/-- Dispatch a native tag to the builtin it names. Every Rust builtin
takes an `EnvRef` parameter and ignores it (`_env`), so the model drops
that parameter. -/
def applyNative : NativeFn → List Obj → Except Obj Obj
  | NativeFn.plus, args => plusFn args
  | NativeFn.minus, args => minusFn args
  | NativeFn.multiply, args => multiplyFn args
  | NativeFn.list, args => listFn args
  | NativeFn.cons, args => consFn args
  | NativeFn.car, args => carFn args

/-! Environments (`src/object.rs`, lines 6-60) -/

/-- One `Environment` frame: an optional parent reference and the local
name-to-value entries (`HashMap<String, Object>` as an association list
with at most one live binding per key). -/
structure Frame where
  parent : Option Nat
  entries : List (String × Obj)

/-- The store of every frame created so far; an `EnvRef` is an index into
`frames`. -/
structure EnvState where
  frames : List Frame

/-- Association-list lookup: first binding for the key, if any. -/
def lookupEntries : List (String × Obj) → String → Option Obj
  | [], _ => none
  | (k2, v) :: rest, k => if k2 == k then some v else lookupEntries rest k

/-- Rust `HashMap::insert` semantics: the new binding replaces any old binding
for the same key. -/
def insertEntry (k : String) (v : Obj) (l : List (String × Obj)) :
    List (String × Obj) :=
  (k, v) :: l.filter (fun p => p.fst != k)

/-- Rust `Environment::define` (`src/object.rs`, lines 46-49), state part:
insert the binding into the frame named by `id`, leaving every other frame
untouched. The Rust function always returns `Ok(Object::Nil)`; that
constant result is inlined at the call sites. -/
def defineState (s : EnvState) (id : Nat) (key : String) (v : Obj) :
    EnvState :=
  match s.frames.get? id with
  | none => s
  | some f =>
    { frames := s.frames.set id { f with entries := insertEntry key v f.entries } }

/-- The chain walk of `Environment::get` (`src/object.rs`, lines 51-59):
local entries first, then the parent chain, `Nil` at the root. The walk is
fueled; `envGet` supplies fuel `s.frames.length`, which covers every chain
in a store whose parent links point to earlier frames (the only stores the
interpreter builds). -/
def envGetAux (s : EnvState) : Nat → Nat → String → Obj
  | 0, _, _ => Obj.nil
  | fuel + 1, id, key =>
    match s.frames.get? id with
    | none => Obj.nil
    | some f =>
      match lookupEntries f.entries key with
      | some v => v
      | none =>
        match f.parent with
        | none => Obj.nil
        | some p => envGetAux s fuel p key

/-- Rust `Environment::get` (`src/object.rs`, lines 51-59). -/
def envGet (s : EnvState) (id : Nat) (key : String) : Obj :=
  envGetAux s s.frames.length id key

/-- Rust `Environment::new_child` (`src/object.rs`, lines 37-44): append a fresh
empty frame pointing at `parent`; its `EnvRef` is the old store length. -/
def newChildState (s : EnvState) (parent : Nat) : Nat × EnvState :=
  (s.frames.length, { frames := s.frames ++ [{ parent := some parent, entries := [] }] })

/-- The native bindings installed by `Environment::new`
(`src/object.rs`, lines 20-32), listed here in a fixed order; all six keys
are distinct, so lookup agrees with the `HashMap` the Rust code builds. -/
def rootEntries : List (String × Obj) :=
  [ ("+", Obj.callable (Funct.native NativeFn.plus)),
    ("-", Obj.callable (Funct.native NativeFn.minus)),
    ("*", Obj.callable (Funct.native NativeFn.multiply)),
    ("list", Obj.callable (Funct.native NativeFn.list)),
    ("cons", Obj.callable (Funct.native NativeFn.cons)),
    ("car", Obj.callable (Funct.native NativeFn.car)) ]

/-- Rust `Environment::new` (`src/object.rs`, lines 14-35): a store holding the
single root frame, pre-populated with the native procedures. -/
def rootState : EnvState :=
  { frames := [{ parent := none, entries := rootEntries }] }

/-! Evaluator (`src/evaluator.rs`) -/

/-- Outcome of one evaluator step: `ok`/`err` are the two sides of the Rust
`Result<Object, Object>` together with the environment store after the
call; `fault` is a Rust panic (unwrap of `None`, index out of bounds);
`spin` is fuel exhaustion, a model artifact. -/
inductive Outcome where
  | ok : Obj → EnvState → Outcome
  | err : Obj → EnvState → Outcome
  | fault : String → Outcome
  | spin : Outcome

/-- Outcome of evaluating an argument list (the `for a in iter` loop of
`eval`, `src/evaluator.rs` lines 60-64). -/
inductive ArgsOut where
  | ok : List Obj → EnvState → ArgsOut
  | err : Obj → EnvState → ArgsOut
  | fault : String → ArgsOut
  | spin : ArgsOut

/-- Rust `is_definition` (`src/evaluator.rs`, lines 89-94): the first element is
the symbol `define`. -/
def isDefinition : List Obj → Bool
  | Obj.symbol s :: _ => s == "define"
  | _ => false

/-- Rust `is_lambda` (`src/evaluator.rs`, lines 71-76): the first element is the
symbol `lambda`. -/
def isLambda : List Obj → Bool
  | Obj.symbol s :: _ => s == "lambda"
  | _ => false

/-- Rust `make_lambda` (`src/evaluator.rs`, lines 78-87): `exps[1]` must be a
List (indexing faults when it is absent; a present non-List is
`Err(Error("arguments are not a list"))`); the body is the single
expression `exps[2]` (indexing faults when absent). -/
def makeLambda (elems : List Obj) (env : Nat) (s : EnvState) : Outcome :=
  match elems.get? 1 with
  | none => Outcome.fault "index out of bounds"
  | some (Obj.list ps) =>
    match elems.get? 2 with
    | none => Outcome.fault "index out of bounds"
    | some b => Outcome.ok (Obj.callable (Funct.lambda ps [b] env)) s
  | some _ => Outcome.err (Obj.newError "arguments are not a list") s

/-- Rust `make_definition` (`src/evaluator.rs`, lines 96-108), parameterised by
the evaluator for the sub-expression: `exps[1]` must be a Symbol (indexing
faults when absent; a present non-Symbol is
`Err(Error("argument has wrong type"))`); then `exps[2]` (indexing faults
when absent) is evaluated and bound. `define` itself always returns
`Ok(Nil)`, so the `or_else` arm of the Rust code is unreachable. -/
def makeDefinitionW (ev : Obj → Nat → EnvState → Outcome)
    (elems : List Obj) (env : Nat) (s : EnvState) : Outcome :=
  match elems.get? 1 with
  | none => Outcome.fault "index out of bounds"
  | some (Obj.symbol name) =>
    match elems.get? 2 with
    | none => Outcome.fault "index out of bounds"
    | some e2 =>
      match ev e2 env s with
      | Outcome.ok v s1 => Outcome.ok Obj.nil (defineState s1 env name v)
      | Outcome.err e s1 => Outcome.err e s1
      | Outcome.fault m => Outcome.fault m
      | Outcome.spin => Outcome.spin
  | some _ => Outcome.err (Obj.newError "argument has wrong type") s

/-- The argument loop of `eval` (`src/evaluator.rs`, lines 60-64):
evaluate left to right, short-circuiting on the first failure (the `?`
operator). -/
def evalArgsW (ev : Obj → Nat → EnvState → Outcome) :
    List Obj → Nat → EnvState → ArgsOut
  | [], _, s => ArgsOut.ok [] s
  | a :: rest, env, s =>
    match ev a env s with
    | Outcome.ok v s1 =>
      match evalArgsW ev rest env s1 with
      | ArgsOut.ok vs s2 => ArgsOut.ok (v :: vs) s2
      | ArgsOut.err e s2 => ArgsOut.err e s2
      | ArgsOut.fault m => ArgsOut.fault m
      | ArgsOut.spin => ArgsOut.spin
    | Outcome.err e s1 => ArgsOut.err e s1
    | Outcome.fault m => ArgsOut.fault m
    | Outcome.spin => ArgsOut.spin

/-- The parameter-binding loop of `apply_lambda` (`src/evaluator.rs`,
lines 7-20): walk the formal parameters with their index; a Symbol
parameter is bound to `args[i]` (a Rust index expression — out of bounds
is a panic, modelled as `none`); a non-Symbol parameter is skipped without
touching `args`. The `result.is_err()` arm is unreachable because `define`
always returns `Ok`. -/
def bindParams (i : Nat) (ps : List Obj) (args : List Obj) (appEnv : Nat)
    (s : EnvState) : Option EnvState :=
  match ps with
  | [] => some s
  | p :: rest =>
    match p with
    | Obj.symbol name =>
      match args.get? i with
      | none => none
      | some a => bindParams (i + 1) rest args appEnv (defineState s appEnv name a)
    | _ => bindParams (i + 1) rest args appEnv s

/-- The body loop of `apply_lambda` (`src/evaluator.rs`, lines 22-25):
`body.iter().map(eval).last().unwrap()` evaluates every body expression in
order and returns the last outcome (an earlier `Err` does not stop the
iteration); an empty body unwraps `None` and faults. -/
def evalSeqW (ev : Obj → Nat → EnvState → Outcome) :
    List Obj → Nat → EnvState → Outcome
  | [], _, _ => Outcome.fault "unwrap on None"
  | e :: rest, env, s =>
    match rest with
    | [] => ev e env s
    | y :: r2 =>
      match ev e env s with
      | Outcome.ok _ s1 => evalSeqW ev (y :: r2) env s1
      | Outcome.err _ s1 => evalSeqW ev (y :: r2) env s1
      | Outcome.fault m => Outcome.fault m
      | Outcome.spin => Outcome.spin

/-- Rust `apply_lambda` (`src/evaluator.rs`, lines 3-32) for a
`Function::Lambda(ps, body, lenv)` (the non-Lambda arm of the Rust
function is unreachable from `apply`, which destructures first): create a
child of the captured environment, bind the parameters positionally, then
evaluate the body there. -/
def applyLambdaW (ev : Obj → Nat → EnvState → Outcome)
    (ps body : List Obj) (lenv : Nat) (args : List Obj) (s : EnvState) :
    Outcome :=
  let appEnv := (newChildState s lenv).fst
  let s1 := (newChildState s lenv).snd
  match bindParams 0 ps args appEnv s1 with
  | none => Outcome.fault "index out of bounds"
  | some s2 => evalSeqW ev body appEnv s2

/-- Rust `apply` (`src/evaluator.rs`, lines 34-42): dispatch a Callable to the
native or the lambda path; anything else is
`Err(Error("cannot call non-function"))`. Natives neither read nor write
the environment, so the store passes through unchanged. -/
def applyW (ev : Obj → Nat → EnvState → Outcome)
    (procv : Obj) (args : List Obj) (s : EnvState) : Outcome :=
  match procv with
  | Obj.callable (Funct.native f) =>
    match applyNative f args with
    | Except.ok v => Outcome.ok v s
    | Except.error e => Outcome.err e s
  | Obj.callable (Funct.lambda ps body lenv) => applyLambdaW ev ps body lenv args s
  | _ => Outcome.err (Obj.newError "cannot call non-function") s

/-- Rust `eval` (`src/evaluator.rs`, lines 44-69), fueled: Nil, Integer,
Callable and Error self-evaluate; a Symbol is looked up (never a failure);
a List is a `define` form, a `lambda` form, or an application whose head
`iter.next().unwrap()` faults on an empty list. -/
def eval : Nat → Obj → Nat → EnvState → Outcome
  | 0, _, _, _ => Outcome.spin
  | fuel + 1, exp, env, s =>
    match exp with
    | Obj.nil => Outcome.ok Obj.nil s
    | Obj.integer n => Outcome.ok (Obj.integer n) s
    | Obj.callable f => Outcome.ok (Obj.callable f) s
    | Obj.error m => Outcome.ok (Obj.error m) s
    | Obj.symbol name => Outcome.ok (envGet s env name) s
    | Obj.list elems =>
      if isDefinition elems then
        makeDefinitionW (fun e n st => eval fuel e n st) elems env s
      else if isLambda elems then makeLambda elems env s
      else
        match elems with
        | [] => Outcome.fault "unwrap on None"
        | first :: rest =>
          match eval fuel first env s with
          | Outcome.ok procv s1 =>
            match evalArgsW (fun e n st => eval fuel e n st) rest env s1 with
            | ArgsOut.ok args s2 =>
              applyW (fun e n st => eval fuel e n st) procv args s2
            | ArgsOut.err e s2 => Outcome.err e s2
            | ArgsOut.fault m => Outcome.fault m
            | ArgsOut.spin => Outcome.spin
          | Outcome.err e s1 => Outcome.err e s1
          | Outcome.fault m => Outcome.fault m
          | Outcome.spin => Outcome.spin

/-! Canonical display form (`impl fmt::Display for Object`,
`src/object.rs` lines 118-138) -/

mutual
/-- The canonical rendering of an `Object`: `<nil>`, decimal integer, the
symbol's text, `Error(msg)`, `<callable>`, or the items joined by single
spaces between parentheses. -/
def display : Obj → String
  | Obj.nil => "<nil>"
  | Obj.integer num => toString num
  | Obj.symbol sym => sym
  | Obj.error sym => "Error(" ++ sym ++ ")"
  | Obj.callable _ => "<callable>"
  | Obj.list items => "(" ++ displayItems items ++ ")"

/-- The item loop of the List arm: each item's rendering, with a single
space after every item but the last. -/
def displayItems : List Obj → String
  | [] => ""
  | [x] => display x
  | x :: y :: rest => display x ++ " " ++ displayItems (y :: rest)
end

/-! Reader (`src/reader.rs`; `src/main.rs` lines 91-191 holds the same
scanning algorithm)

`src/reader.rs` declares `read : &str -> Result<Vec<Rc<Object>>, String>`
over `crate::object::Object` and scans with `read_integer`, `read_symbol`,
`read_object`, `read_list`; list elements are appended in encounter order
(the cons-cell append of the source builds the proper list of its elements,
materialised here directly as `Obj.list`). Parse results are `ReadResult`:
`ok`, `fail msg` (the Rust `Err(String)`; the source interpolates the
offending character into the message, the model keeps the fixed prefix),
and `spin` for fuel exhaustion of the model (never reached at the fuel
`read` supplies for the inputs appearing in any theorem). -/

inductive ReadResult (α : Type) where
  | ok : α → ReadResult α
  | fail : String → ReadResult α
  | spin : ReadResult α

/-- Rust `valid_symbol_char` (`src/reader.rs`, lines 27-33): not a parenthesis,
and ASCII alphanumeric or ASCII punctuation. -/
def validSymbolChar (c : Char) : Bool :=
  if c == '(' || c == ')' then false
  else
    (48 ≤ c.toNat && c.toNat ≤ 57) || (65 ≤ c.toNat && c.toNat ≤ 90) ||
    (97 ≤ c.toNat && c.toNat ≤ 122) ||
    (33 ≤ c.toNat && c.toNat ≤ 47) || (58 ≤ c.toNat && c.toNat ≤ 64) ||
    (91 ≤ c.toNat && c.toNat ≤ 96) || (123 ≤ c.toNat && c.toNat ≤ 126)

/-- The single-character integer parse `c.to_string().parse::<i64>()`:
succeeds exactly on an ASCII decimal digit. -/
def digitVal (c : Char) : Option Int :=
  if 48 ≤ c.toNat && c.toNat ≤ 57 then some ((c.toNat : Int) - 48) else none

/-- Whitespace skipped by the reader loops: space and newline only. -/
def isWs (c : Char) : Bool := c == ' ' || c == '\n'

/-- The digit loop of `read_integer` (`src/reader.rs`, lines 17-20):
accumulate while the next character parses as a digit. -/
def readIntLoop (number : Int) : List Char → Int × List Char
  | [] => (number, [])
  | c :: rest =>
    match digitVal c with
    | some d => readIntLoop (number * 10 + d) rest
    | none => (number, c :: rest)

/-- Rust `read_integer` (`src/reader.rs`, lines 7-25): `c` is the character the
caller peeked (its unconditional `lexer.next()`); a non-digit start is
`Err("error parsing number")` (unreachable from `read_object`, which only
dispatches digits here). After the digit loop the source executes one more
unconditional `lexer.next()`, consuming the character that ended the
number — the model's `List.drop 1`. -/
def readInteger (c : Char) (cs : List Char) : ReadResult (Obj × List Char) :=
  match digitVal c with
  | none => ReadResult.fail "error parsing number"
  | some d =>
    match readIntLoop d cs with
    | (number, rest) => ReadResult.ok (Obj.integer number, rest.drop 1)

/-- The collecting loop of `read_symbol` (`src/reader.rs`, lines 39-45):
take the maximal run of valid symbol characters. -/
def symLoop : List Char → List Char × List Char
  | [] => ([], [])
  | c :: rest =>
    if validSymbolChar c then
      match symLoop rest with
      | (collected, r) => (c :: collected, r)
    else ([], c :: rest)

/-- Rust `read_symbol` (`src/reader.rs`, lines 35-48): the peeked character plus
the maximal run after it. -/
def readSymbol (c : Char) (cs : List Char) : Obj × List Char :=
  match symLoop cs with
  | (collected, rest) => (Obj.symbol (String.mk (c :: collected)), rest)

mutual
/-- Rust `read_object` (`src/reader.rs`, lines 50-57): dispatch on the peeked
character — digit, `(`, symbol character, or `Err("unexpected
character")`. -/
def readObject : Nat → List Char → ReadResult (Obj × List Char)
  | 0, _ => ReadResult.spin
  | fuel + 1, cs =>
    match cs with
    | [] => ReadResult.fail "unexpected character"
    | c :: rest =>
      if 48 ≤ c.toNat && c.toNat ≤ 57 then readInteger c rest
      else if c == '(' then readList fuel (c :: rest)
      else if validSymbolChar c then ReadResult.ok (readSymbol c rest)
      else ReadResult.fail "unexpected character"

/-- Rust `read_list` (`src/reader.rs`, lines 59-90): consume the `(` the caller
peeked (`lexer.next()`; a no-op on empty input), then run the element
loop. -/
def readList : Nat → List Char → ReadResult (Obj × List Char)
  | 0, _ => ReadResult.spin
  | fuel + 1, cs => readListLoop fuel (cs.drop 1) []

/-- The `while let Some(&c) = lexer.peek()` loop of `read_list`: a `)`
closes the list, whitespace is skipped, anything else is read as one
element (via `read_list` for `(`, `read_object` otherwise) and appended.
Exhausting the input ends the loop and returns the list read so far — an
unterminated list is not an error. -/
def readListLoop : Nat → List Char → List Obj → ReadResult (Obj × List Char)
  | 0, _, _ => ReadResult.spin
  | fuel + 1, cs, acc =>
    match cs with
    | [] => ReadResult.ok (Obj.list acc.reverse, [])
    | c :: rest =>
      if c == ')' then ReadResult.ok (Obj.list acc.reverse, rest)
      else if isWs c then readListLoop fuel rest acc
      else
        match if c == '(' then readList fuel (c :: rest)
              else readObject fuel (c :: rest) with
        | ReadResult.ok (element, rest2) => readListLoop fuel rest2 (element :: acc)
        | ReadResult.fail e => ReadResult.fail e
        | ReadResult.spin => ReadResult.spin
end

/-- The top-level loop of `read` (`src/reader.rs`, lines 96-104): skip
whitespace, read one object per remaining form, collect them in order. -/
def readTop (fuel : Nat) (cs : List Char) (acc : List Obj) :
    ReadResult (List Obj) :=
  match fuel with
  | 0 => ReadResult.spin
  | fuel + 1 =>
    match cs with
    | [] => ReadResult.ok acc.reverse
    | c :: rest =>
      if isWs c then readTop fuel rest acc
      else
        match readObject fuel (c :: rest) with
        | ReadResult.ok (o, rest2) => readTop fuel rest2 (o :: acc)
        | ReadResult.fail e => ReadResult.fail e
        | ReadResult.spin => ReadResult.spin

/-- Rust `read` (`src/reader.rs`, lines 92-107). The fuel `2 * length + 2`
dominates the loop iteration count: every iteration of the two fueled
loops either consumes at least one input character or terminates its
loop. -/
def read (cs : List Char) : ReadResult (List Obj) :=
  readTop (2 * cs.length + 2) cs []

/-! Helper lemmas -/

/-- Setting index `i` leaves every other index of a list unchanged. -/
theorem set_get?_other {α : Type} :
    ∀ (l : List α) (i j : Nat) (a : α), i ≠ j → (l.set i a).get? j = l.get? j := by
  intro l
  induction l with
  | nil => intro i j a _; simp [List.set]
  | cons x xs ih =>
    intro i j a hij
    cases i with
    | zero =>
      cases j with
      | zero => exact absurd rfl hij
      | succ j => simp [List.set]
    | succ i =>
      cases j with
      | zero => simp [List.set]
      | succ j => simpa [List.set] using ih i j a (fun h => hij (by rw [h]))

/-- Setting index `i` at a valid index stores the new element there. -/
theorem set_get?_same {α : Type} :
    ∀ (l : List α) (i : Nat) (a b : α), l.get? i = some b →
      (l.set i a).get? i = some a := by
  intro l
  induction l with
  | nil => intro i a b h; simp at h
  | cons x xs ih =>
    intro i a b h
    cases i with
    | zero => simp [List.set]
    | succ i => simpa [List.set] using ih i a b (by simpa using h)

/-- An index that resolves in a list yields one of its members. -/
theorem mem_of_get?_eq_some {α : Type} :
    ∀ (l : List α) (i : Nat) (a : α), l.get? i = some a → a ∈ l := by
  intro l
  induction l with
  | nil => intro i a h; simp at h
  | cons x xs ih =>
    intro i a h
    cases i with
    | zero => simp at h; simp [h]
    | succ i => exact List.mem_cons_of_mem x (ih i a (by simpa using h))

/-- Appending on the right leaves every index below the old length
unchanged. -/
theorem append_get?_left {α : Type} :
    ∀ (l l2 : List α) (j : Nat), j < l.length → (l ++ l2).get? j = l.get? j := by
  intro l
  induction l with
  | nil => intro l2 j h; simp at h
  | cons x xs ih =>
    intro l2 j h
    cases j with
    | zero => simp
    | succ j => simpa using ih l2 j (by simpa using h)

/-- If a key is absent from every frame's local entries, the chain walk of
`Environment::get` can only ever answer `Nil`, regardless of fuel or of
the starting frame. -/
theorem envGetAux_unbound (s : EnvState) (name : String)
    (h : ∀ f ∈ s.frames, lookupEntries f.entries name = none) :
    ∀ (n id : Nat), envGetAux s n id name = Obj.nil := by
  intro n
  induction n with
  | zero => intro id; rfl
  | succ n ih =>
    intro id
    rw [envGetAux]
    cases hf : s.frames.get? id with
    | none => rfl
    | some f =>
      have hl := h f (mem_of_get?_eq_some s.frames id f hf)
      cases hp : f.parent with
      | none => simp [hl, hp]
      | some p => simp [hl, hp, ih p]

/-- A Boolean known to be untrue is false. -/
theorem bool_eq_false_of_ne {b : Bool} (h : ¬ b = true) : b = false := by
  cases b
  · rfl
  · exact absurd rfl h

/-- A false Boolean is not true. -/
theorem bool_ne_true {b : Bool} (h : b = false) : ¬ b = true := by
  rw [h]
  exact fun hh => Bool.noConfusion hh

/-- The digit loop of `read_integer` only consumes input. -/
theorem readIntLoop_length : ∀ (cs : List Char) (n : Int),
    ((readIntLoop n cs).snd).length ≤ cs.length := by
  intro cs
  induction cs with
  | nil => intro n; simp [readIntLoop]
  | cons c rest ih =>
    intro n
    cases hd : digitVal c with
    | some d =>
      simp only [readIntLoop, hd]
      exact le_trans (ih _) (Nat.le_succ _)
    | none =>
      simp only [readIntLoop, hd]
      exact Nat.le_refl _

/-- The symbol loop only consumes input. -/
theorem symLoop_length : ∀ (cs : List Char), ((symLoop cs).snd).length ≤ cs.length := by
  intro cs
  induction cs with
  | nil => simp [symLoop]
  | cons c rest ih =>
    by_cases hv : validSymbolChar c = true
    · cases hsl : symLoop rest with
      | mk col r =>
        simp only [symLoop, hv, if_true, hsl]
        rw [hsl] at ih
        exact le_trans ih (Nat.le_succ _)
    · simp only [symLoop, hv, if_false]
      exact Nat.le_refl _

/-- Rust `read_object` fails with `unexpected character` on every input
whose first character is neither an ASCII digit, `(`, nor a valid symbol
character, whatever follows and at every non-zero fuel. -/
theorem readObject_bad (f : Nat) (c : Char) (rest : List Char)
    (h1 : (48 ≤ c.toNat && c.toNat ≤ 57) = false)
    (h2 : (c == '(') = false)
    (h3 : validSymbolChar c = false) :
    readObject (f + 1) (c :: rest) = ReadResult.fail "unexpected character" := by
  have hstep : readObject (f + 1) (c :: rest) =
      (if 48 ≤ c.toNat && c.toNat ≤ 57 then readInteger c rest
       else if c == '(' then readList f (c :: rest)
       else if validSymbolChar c then ReadResult.ok (readSymbol c rest)
       else ReadResult.fail "unexpected character") := rfl
  rw [hstep, if_neg (bool_ne_true h1), if_neg (bool_ne_true h2),
    if_neg (bool_ne_true h3)]

/-- Rust `read_object` on a non-`(` first character never recurses into
the fueled list reader: it answers at once (integer, symbol or failure)
and, on success, consumes at least the peeked character. -/
theorem readObject_nonparen (f : Nat) (c : Char) (rest : List Char)
    (h2 : (c == '(') = false) :
    readObject (f + 1) (c :: rest) ≠ ReadResult.spin
    ∧ ∀ o rest2, readObject (f + 1) (c :: rest) = ReadResult.ok (o, rest2) →
        rest2.length ≤ rest.length := by
  by_cases h1 : (48 ≤ c.toNat && c.toNat ≤ 57) = true
  · have hro : readObject (f + 1) (c :: rest) = readInteger c rest := by
      have hstep : readObject (f + 1) (c :: rest) =
          (if 48 ≤ c.toNat && c.toNat ≤ 57 then readInteger c rest
           else if c == '(' then readList f (c :: rest)
           else if validSymbolChar c then ReadResult.ok (readSymbol c rest)
           else ReadResult.fail "unexpected character") := rfl
      rw [hstep, if_pos h1]
    rw [hro]
    have hdv : digitVal c = some ((c.toNat : Int) - 48) := by
      show (if 48 ≤ c.toNat && c.toNat ≤ 57 then some ((c.toNat : Int) - 48)
        else none) = _
      rw [if_pos h1]
    cases hil : readIntLoop ((c.toNat : Int) - 48) rest with
    | mk num r =>
      have hri : readInteger c rest = ReadResult.ok (Obj.integer num, r.drop 1) := by
        have hstep2 : readInteger c rest =
            (match digitVal c with
             | none => ReadResult.fail "error parsing number"
             | some d =>
               match readIntLoop d rest with
               | (number, rest2) => ReadResult.ok (Obj.integer number, rest2.drop 1)) := rfl
        rw [hstep2, hdv]
        dsimp only
        rw [hil]
      rw [hri]
      refine ⟨fun h => ReadResult.noConfusion h, fun o rest2 h => ?_⟩
      have h3 : ReadResult.ok ((Obj.integer num : Obj), r.drop 1)
          = ReadResult.ok (o, rest2) := h
      injection h3 with h4
      injection h4 with h5 h6
      have hlen : r.length ≤ rest.length := by
        have hl := readIntLoop_length rest ((c.toNat : Int) - 48)
        rw [hil] at hl
        exact hl
      rw [← h6, List.length_drop]
      omega
  · have h1' : (48 ≤ c.toNat && c.toNat ≤ 57) = false := bool_eq_false_of_ne h1
    by_cases h3 : validSymbolChar c = true
    · have hro : readObject (f + 1) (c :: rest) = ReadResult.ok (readSymbol c rest) := by
        have hstep : readObject (f + 1) (c :: rest) =
            (if 48 ≤ c.toNat && c.toNat ≤ 57 then readInteger c rest
             else if c == '(' then readList f (c :: rest)
             else if validSymbolChar c then ReadResult.ok (readSymbol c rest)
             else ReadResult.fail "unexpected character") := rfl
        rw [hstep, if_neg (bool_ne_true h1'), if_neg (bool_ne_true h2), if_pos h3]
      rw [hro]
      cases hsl : symLoop rest with
      | mk col r =>
        have hrs : readSymbol c rest = (Obj.symbol (String.mk (c :: col)), r) := by
          have hstep2 : readSymbol c rest =
              (match symLoop rest with
               | (collected, rest2) =>
                 (Obj.symbol (String.mk (c :: collected)), rest2)) := rfl
          rw [hstep2, hsl]
        rw [hrs]
        refine ⟨fun h => ReadResult.noConfusion h, fun o rest2 h => ?_⟩
        have h4 : ReadResult.ok ((Obj.symbol (String.mk (c :: col)) : Obj), r)
            = ReadResult.ok (o, rest2) := h
        injection h4 with h5
        injection h5 with h6 h7
        have hl := symLoop_length rest
        rw [hsl] at hl
        rw [← h7]
        exact hl
    · have h3' : validSymbolChar c = false := bool_eq_false_of_ne h3
      rw [readObject_bad f c rest h1' h2 h3']
      exact ⟨fun h => ReadResult.noConfusion h,
        fun o rest2 h => absurd h (fun hh => ReadResult.noConfusion hh)⟩

/-- The element loop of `read_list` never exhausts the fuel `read`
supplies: with fuel at least twice the remaining input plus one it always
delivers the Rust `Result`, and on success it only consumes input. -/
theorem readListLoop_total : ∀ (f : Nat) (cs : List Char) (acc : List Obj),
    2 * cs.length + 1 ≤ f →
    readListLoop f cs acc ≠ ReadResult.spin
    ∧ ∀ o rest2, readListLoop f cs acc = ReadResult.ok (o, rest2) →
        rest2.length ≤ cs.length := by
  intro f
  induction f using Nat.strong_induction_on with
  | h f ih =>
    intro cs acc hf
    cases f with
    | zero => omega
    | succ g =>
      cases cs with
      | nil =>
        refine ⟨fun h => ReadResult.noConfusion h, fun o rest2 h => ?_⟩
        have h2 : ReadResult.ok ((Obj.list acc.reverse : Obj), ([] : List Char))
            = ReadResult.ok (o, rest2) := h
        simp only [ReadResult.ok.injEq, Prod.mk.injEq] at h2
        rw [← h2.2]
      | cons c rest =>
        rw [List.length_cons] at hf
        have hstep : readListLoop (g + 1) (c :: rest) acc =
            (if c == ')' then ReadResult.ok (Obj.list acc.reverse, rest)
             else if isWs c then readListLoop g rest acc
             else
               match (if c == '(' then readList g (c :: rest)
                      else readObject g (c :: rest)) with
               | ReadResult.ok (element, rest2) =>
                 readListLoop g rest2 (element :: acc)
               | ReadResult.fail e => ReadResult.fail e
               | ReadResult.spin => ReadResult.spin) := rfl
        rw [hstep]
        by_cases hcp : (c == ')') = true
        · rw [if_pos hcp]
          refine ⟨fun h => ReadResult.noConfusion h, fun o rest2 h => ?_⟩
          have h2 : ReadResult.ok ((Obj.list acc.reverse : Obj), rest)
              = ReadResult.ok (o, rest2) := h
          simp only [ReadResult.ok.injEq, Prod.mk.injEq] at h2
          rw [← h2.2, List.length_cons]
          omega
        · rw [if_neg hcp]
          by_cases hw : (isWs c) = true
          · rw [if_pos hw]
            have hrec := ih g (by omega) rest acc (by omega)
            exact ⟨hrec.1, fun o rest2 h =>
              le_trans (hrec.2 o rest2 h) (by rw [List.length_cons]; omega)⟩
          · rw [if_neg hw]
            by_cases hcl : (c == '(') = true
            · rw [if_pos hcl]
              cases g with
              | zero => omega
              | succ g2 =>
                have hrl : readList (g2 + 1) (c :: rest) = readListLoop g2 rest [] := rfl
                rw [hrl]
                have hinner := ih g2 (by omega) rest [] (by omega)
                cases hres : readListLoop g2 rest [] with
                | ok pr =>
                  obtain ⟨elem, rest2⟩ := pr
                  have hb2 : rest2.length ≤ rest.length := hinner.2 elem rest2 hres
                  have hcont := ih (g2 + 1) (by omega) rest2 (elem :: acc) (by omega)
                  exact ⟨hcont.1, fun o rest3 h =>
                    le_trans (hcont.2 o rest3 h) (by rw [List.length_cons]; omega)⟩
                | fail e =>
                  exact ⟨fun h => ReadResult.noConfusion h,
                    fun o rest2 h => absurd h (fun hh => ReadResult.noConfusion hh)⟩
                | spin => exact (hinner.1 hres).elim
            · rw [if_neg hcl]
              cases g with
              | zero => omega
              | succ g2 =>
                have hcl' : (c == '(') = false := bool_eq_false_of_ne hcl
                have hA := readObject_nonparen g2 c rest hcl'
                cases hres : readObject (g2 + 1) (c :: rest) with
                | ok pr =>
                  obtain ⟨elem, rest2⟩ := pr
                  have hb2 : rest2.length ≤ rest.length := hA.2 elem rest2 hres
                  have hcont := ih (g2 + 1) (by omega) rest2 (elem :: acc) (by omega)
                  exact ⟨hcont.1, fun o rest3 h =>
                    le_trans (hcont.2 o rest3 h) (by rw [List.length_cons]; omega)⟩
                | fail e =>
                  exact ⟨fun h => ReadResult.noConfusion h,
                    fun o rest2 h => absurd h (fun hh => ReadResult.noConfusion hh)⟩
                | spin => exact (hA.1 hres).elim

/-- Rust `read_object`, given fuel at least twice the input length plus
one, always delivers the Rust `Result` and on success strictly consumes
input. -/
theorem readObject_total : ∀ (g : Nat) (cs : List Char),
    2 * cs.length + 1 ≤ g →
    readObject g cs ≠ ReadResult.spin
    ∧ ∀ o rest2, readObject g cs = ReadResult.ok (o, rest2) →
        rest2.length < cs.length := by
  intro g cs hg
  cases g with
  | zero => omega
  | succ g' =>
    cases cs with
    | nil =>
      exact ⟨fun h => ReadResult.noConfusion h,
        fun o rest2 h => absurd h (fun hh => ReadResult.noConfusion hh)⟩
    | cons c rest =>
      rw [List.length_cons] at hg
      by_cases hcl : (c == '(') = true
      · have hceq : c = '(' := eq_of_beq hcl
        subst hceq
        have hro : readObject (g' + 1) ('(' :: rest) = readList g' ('(' :: rest) := rfl
        rw [hro]
        cases g' with
        | zero => omega
        | succ g2 =>
          have hrl : readList (g2 + 1) ('(' :: rest) = readListLoop g2 rest [] := rfl
          rw [hrl]
          have hP := readListLoop_total g2 rest [] (by omega)
          exact ⟨hP.1, fun o rest2 h =>
            lt_of_le_of_lt (hP.2 o rest2 h) (by rw [List.length_cons]; omega)⟩
      · have hcl' : (c == '(') = false := bool_eq_false_of_ne hcl
        have hA := readObject_nonparen g' c rest hcl'
        exact ⟨hA.1, fun o rest2 h =>
          lt_of_le_of_lt (hA.2 o rest2 h) (by rw [List.length_cons]; omega)⟩

/-- The top-level loop of `read` never exhausts the fuel `read` supplies:
with fuel at least twice the input length plus two it always delivers the
Rust `Result`. -/
theorem readTop_total : ∀ (f : Nat) (cs : List Char) (acc : List Obj),
    2 * cs.length + 2 ≤ f → readTop f cs acc ≠ ReadResult.spin := by
  intro f
  induction f using Nat.strong_induction_on with
  | h f ih =>
    intro cs acc hf
    cases f with
    | zero => omega
    | succ g =>
      cases cs with
      | nil => exact fun h => ReadResult.noConfusion h
      | cons c rest =>
        rw [List.length_cons] at hf
        have hstep : readTop (g + 1) (c :: rest) acc =
            (if isWs c then readTop g rest acc
             else
               match readObject g (c :: rest) with
               | ReadResult.ok (o, rest2) => readTop g rest2 (o :: acc)
               | ReadResult.fail e => ReadResult.fail e
               | ReadResult.spin => ReadResult.spin) := rfl
        rw [hstep]
        by_cases hw : (isWs c) = true
        · rw [if_pos hw]
          exact ih g (by omega) rest acc (by omega)
        · rw [if_neg hw]
          have hA := readObject_total g (c :: rest) (by rw [List.length_cons]; omega)
          cases hres : readObject g (c :: rest) with
          | ok pr =>
            obtain ⟨o, rest2⟩ := pr
            have hb : rest2.length < rest.length + 1 := by
              have hb0 := hA.2 o rest2 hres
              rwa [List.length_cons] at hb0
            exact ih g (by omega) rest2 (o :: acc) (by omega)
          | fail e => exact fun h => ReadResult.noConfusion h
          | spin => exact (hA.1 hres).elim

/-- The first non-Integer argument makes the `plus` fold return
`Ok(Object::Nil)` whatever the accumulator holds so far. -/
theorem plusGo_non_integer (sum : Int) (args : List Obj)
    (h : ∃ x ∈ args, x.isIntegerObj = false) :
    plusGo sum args = Except.ok Obj.nil := by
  induction args generalizing sum with
  | nil => rcases h with ⟨x, hx, _⟩; simp at hx
  | cons a rest ih =>
    cases a with
    | integer v =>
      rcases h with ⟨x, hx, hxi⟩
      rcases List.mem_cons.mp hx with h1 | h2
      · rw [h1] at hxi; simp [Obj.isIntegerObj] at hxi
      · exact ih (sum + v) ⟨x, h2, hxi⟩
    | nil => rfl
    | symbol q => rfl
    | list q => rfl
    | callable q => rfl
    | error q => rfl

/-! The claims -/

/-- C1, counterexample: `plus` applied to a single non-Integer argument
returns `Ok(Object::Nil)` — the success side of the `Result` — not a
failure, refuting the claim that any non-Integer argument makes `plus`
fail. -/
theorem c1_plus_non_integer_is_ok :
    plusFn [Obj.nil] = Except.ok Obj.nil := rfl

/-- C1, amended: for every argument list passed to `+` containing at least
one non-Integer Object, `plus` returns the success value `Ok(Object::Nil)`
(the fold is abandoned and `Nil` is returned through the success channel,
not the failure channel). -/
theorem c1_plus_non_integer_returns_ok_nil (args : List Obj)
    (h : ∃ x ∈ args, x.isIntegerObj = false) :
    plusFn args = Except.ok Obj.nil :=
  plusGo_non_integer 0 args h

/-- C1, witness: the amended theorem evaluated at `(+ 3 <nil>)`. -/
theorem c1_witness :
    plusFn [Obj.integer 3, Obj.nil] = Except.ok Obj.nil :=
  c1_plus_non_integer_returns_ok_nil [Obj.integer 3, Obj.nil]
    ⟨Obj.nil, by simp, rfl⟩

/-- The failure-payload discipline the amended C2 states: an `Err` carries
an `Error(message)` value, except for the `Err(Object::Nil)` produced by
`minus` and `multiply` on non-Integer arguments. -/
def errPayloadOk (e : Obj) : Prop := (∃ m, e = Obj.error m) ∨ e = Obj.nil

/-- Rust `plus` never uses the failure channel at all. -/
theorem plusGo_ne_error (sum : Int) (args : List Obj) (e : Obj) :
    plusGo sum args ≠ Except.error e := by
  induction args generalizing sum with
  | nil => intro h; exact Except.noConfusion h
  | cons a rest ih =>
    intro h
    cases a with
    | integer v => exact ih (sum + v) h
    | nil => exact Except.noConfusion h
    | symbol q => exact Except.noConfusion h
    | list q => exact Except.noConfusion h
    | callable q => exact Except.noConfusion h
    | error q => exact Except.noConfusion h

/-- The `minus` fold fails only with the `Nil` payload. -/
theorem minusGo_err (sum : Int) (args : List Obj) (e : Obj)
    (h : minusGo sum args = Except.error e) : e = Obj.nil := by
  induction args generalizing sum with
  | nil => exact Except.noConfusion h
  | cons a rest ih =>
    cases a with
    | integer v => exact ih (sum - v) h
    | nil => injection h with h1; exact h1.symm
    | symbol q => injection h with h1; exact h1.symm
    | list q => injection h with h1; exact h1.symm
    | callable q => injection h with h1; exact h1.symm
    | error q => injection h with h1; exact h1.symm

/-- The `multiply` fold fails only with the `Nil` payload. -/
theorem mulGo_err (sum : Int) (args : List Obj) (e : Obj)
    (h : mulGo sum args = Except.error e) : e = Obj.nil := by
  induction args generalizing sum with
  | nil => exact Except.noConfusion h
  | cons a rest ih =>
    cases a with
    | integer v => exact ih (sum * v) h
    | nil => injection h with h1; exact h1.symm
    | symbol q => injection h with h1; exact h1.symm
    | list q => injection h with h1; exact h1.symm
    | callable q => injection h with h1; exact h1.symm
    | error q => injection h with h1; exact h1.symm

/-- Every native failure payload is an `Error(message)` or — for the
non-Integer arms of `minus` and `multiply` — `Nil`. -/
theorem applyNative_err (f : NativeFn) (args : List Obj) (e : Obj)
    (h : applyNative f args = Except.error e) : errPayloadOk e := by
  cases f with
  | plus => exact absurd h (plusGo_ne_error 0 args e)
  | minus =>
    cases args with
    | nil => injection h with h1; exact Or.inl ⟨_, h1.symm⟩
    | cons first rest =>
      cases rest with
      | nil => injection h with h1; exact Or.inl ⟨_, h1.symm⟩
      | cons b rest2 =>
        cases first with
        | integer v => exact Or.inr (minusGo_err v (b :: rest2) e h)
        | nil => injection h with h1; exact Or.inl ⟨_, h1.symm⟩
        | symbol q => injection h with h1; exact Or.inl ⟨_, h1.symm⟩
        | list q => injection h with h1; exact Or.inl ⟨_, h1.symm⟩
        | callable q => injection h with h1; exact Or.inl ⟨_, h1.symm⟩
        | error q => injection h with h1; exact Or.inl ⟨_, h1.symm⟩
  | multiply => exact Or.inr (mulGo_err 1 args e h)
  | list => exact Except.noConfusion h
  | cons =>
    have h2 : consFn args = Except.error e := h
    unfold consFn at h2
    split at h2
    · exact Except.noConfusion h2
    · injection h2 with h1; exact Or.inl ⟨_, h1.symm⟩
  | car =>
    cases args with
    | nil => injection h with h1; exact Or.inl ⟨_, h1.symm⟩
    | cons a rest =>
      cases rest with
      | cons b r2 => injection h with h1; exact Or.inl ⟨_, h1.symm⟩
      | nil =>
        cases a with
        | list items =>
          cases items with
          | nil => injection h with h1; exact Or.inl ⟨_, h1.symm⟩
          | cons x xs => exact Except.noConfusion h
        | nil => injection h with h1; exact Or.inl ⟨_, h1.symm⟩
        | integer v => injection h with h1; exact Or.inl ⟨_, h1.symm⟩
        | symbol q => injection h with h1; exact Or.inl ⟨_, h1.symm⟩
        | callable q => injection h with h1; exact Or.inl ⟨_, h1.symm⟩
        | error q => injection h with h1; exact Or.inl ⟨_, h1.symm⟩

/-- Argument-loop failures are propagated sub-evaluation failures. -/
theorem evalArgsW_err (ev : Obj → Nat → EnvState → Outcome)
    (H : ∀ a env s e s2, ev a env s = Outcome.err e s2 → errPayloadOk e) :
    ∀ (as : List Obj) (env : Nat) (s : EnvState) (e : Obj) (s2 : EnvState),
      evalArgsW ev as env s = ArgsOut.err e s2 → errPayloadOk e := by
  intro as
  induction as with
  | nil => intro env s e s2 h; exact ArgsOut.noConfusion h
  | cons a rest ih =>
    intro env s e s2 h
    rw [evalArgsW] at h
    split at h
    · rename_i v s1 heq1
      split at h
      · exact ArgsOut.noConfusion h
      · rename_i e2 s2b heq2
        injection h with h1 h2
        exact h1 ▸ ih env s1 e2 s2b heq2
      · exact ArgsOut.noConfusion h
      · exact ArgsOut.noConfusion h
    · rename_i e2 s1 heq1
      injection h with h1 h2
      exact h1 ▸ H a env s e2 s1 heq1
    · exact ArgsOut.noConfusion h
    · exact ArgsOut.noConfusion h

/-- Body-loop failures are propagated sub-evaluation failures. -/
theorem evalSeqW_err (ev : Obj → Nat → EnvState → Outcome)
    (H : ∀ a env s e s2, ev a env s = Outcome.err e s2 → errPayloadOk e) :
    ∀ (body : List Obj) (env : Nat) (s : EnvState) (e : Obj) (s2 : EnvState),
      evalSeqW ev body env s = Outcome.err e s2 → errPayloadOk e := by
  intro body
  induction body with
  | nil => intro env s e s2 h; exact Outcome.noConfusion h
  | cons e1 rest ih =>
    intro env s e s2 h
    cases rest with
    | nil => exact H e1 env s e s2 h
    | cons y r2 =>
      simp only [evalSeqW] at h
      cases hv : ev e1 env s with
      | ok v s1 => rw [hv] at h; exact ih env s1 e s2 h
      | err e2 s1 => rw [hv] at h; exact ih env s1 e s2 h
      | fault m => rw [hv] at h; exact Outcome.noConfusion h
      | spin => rw [hv] at h; exact Outcome.noConfusion h

/-- Rust `make_definition` failures are the `argument has wrong type` error or
a propagated sub-evaluation failure. -/
theorem makeDefinitionW_err (ev : Obj → Nat → EnvState → Outcome)
    (H : ∀ a env s e s2, ev a env s = Outcome.err e s2 → errPayloadOk e)
    (elems : List Obj) (env : Nat) (s : EnvState) (e : Obj) (s2 : EnvState)
    (h : makeDefinitionW ev elems env s = Outcome.err e s2) : errPayloadOk e := by
  cases hg1 : elems.get? 1 with
  | none =>
    simp only [makeDefinitionW, hg1] at h
    exact Outcome.noConfusion h
  | some e1 =>
    cases e1 with
    | symbol name =>
      cases hg2 : elems.get? 2 with
      | none =>
        simp only [makeDefinitionW, hg1, hg2] at h
        exact Outcome.noConfusion h
      | some e2 =>
        simp only [makeDefinitionW, hg1, hg2] at h
        cases hv : ev e2 env s with
        | ok v s1 => rw [hv] at h; exact Outcome.noConfusion h
        | err e3 s1 =>
          rw [hv] at h
          have h2 : Outcome.err e3 s1 = Outcome.err e s2 := h
          injection h2 with h1 _
          exact h1 ▸ H e2 env s e3 s1 hv
        | fault m => rw [hv] at h; exact Outcome.noConfusion h
        | spin => rw [hv] at h; exact Outcome.noConfusion h
    | nil =>
      simp only [makeDefinitionW, hg1] at h
      have h2 : Outcome.err (Obj.newError "argument has wrong type") s
          = Outcome.err e s2 := h
      injection h2 with h1 _
      exact Or.inl ⟨_, h1.symm⟩
    | integer v =>
      simp only [makeDefinitionW, hg1] at h
      have h2 : Outcome.err (Obj.newError "argument has wrong type") s
          = Outcome.err e s2 := h
      injection h2 with h1 _
      exact Or.inl ⟨_, h1.symm⟩
    | list q =>
      simp only [makeDefinitionW, hg1] at h
      have h2 : Outcome.err (Obj.newError "argument has wrong type") s
          = Outcome.err e s2 := h
      injection h2 with h1 _
      exact Or.inl ⟨_, h1.symm⟩
    | callable q =>
      simp only [makeDefinitionW, hg1] at h
      have h2 : Outcome.err (Obj.newError "argument has wrong type") s
          = Outcome.err e s2 := h
      injection h2 with h1 _
      exact Or.inl ⟨_, h1.symm⟩
    | error q =>
      simp only [makeDefinitionW, hg1] at h
      have h2 : Outcome.err (Obj.newError "argument has wrong type") s
          = Outcome.err e s2 := h
      injection h2 with h1 _
      exact Or.inl ⟨_, h1.symm⟩

/-- Rust `make_lambda` fails only with the `arguments are not a list` error. -/
theorem makeLambda_err (elems : List Obj) (env : Nat) (s : EnvState)
    (e : Obj) (s2 : EnvState)
    (h : makeLambda elems env s = Outcome.err e s2) : errPayloadOk e := by
  rw [makeLambda] at h
  split at h
  · exact Outcome.noConfusion h
  · split at h
    · exact Outcome.noConfusion h
    · exact Outcome.noConfusion h
  · injection h with h1; exact Or.inl ⟨_, h1.symm⟩

/-- Rust `apply` failures are native failures, `cannot call non-function`, or
propagated lambda-body failures. -/
theorem applyW_err (ev : Obj → Nat → EnvState → Outcome)
    (H : ∀ a env s e s2, ev a env s = Outcome.err e s2 → errPayloadOk e)
    (procv : Obj) (args : List Obj) (s : EnvState) (e : Obj) (s2 : EnvState)
    (h : applyW ev procv args s = Outcome.err e s2) : errPayloadOk e := by
  cases procv with
  | callable fn =>
    cases fn with
    | native f =>
      simp only [applyW] at h
      cases ha : applyNative f args with
      | ok v => rw [ha] at h; exact Outcome.noConfusion h
      | error e2 =>
        rw [ha] at h
        have h2 : Outcome.err e2 s = Outcome.err e s2 := h
        injection h2 with h1 _
        exact h1 ▸ applyNative_err f args e2 ha
    | lambda ps body lenv =>
      simp only [applyW, applyLambdaW] at h
      cases hb : bindParams 0 ps args (newChildState s lenv).fst
          (newChildState s lenv).snd with
      | none => rw [hb] at h; exact Outcome.noConfusion h
      | some s3 =>
        rw [hb] at h
        exact evalSeqW_err ev H body (newChildState s lenv).fst s3 e s2 h
  | nil =>
    have h2 : Outcome.err (Obj.newError "cannot call non-function") s
        = Outcome.err e s2 := h
    injection h2 with h1 _
    exact Or.inl ⟨_, h1.symm⟩
  | integer v =>
    have h2 : Outcome.err (Obj.newError "cannot call non-function") s
        = Outcome.err e s2 := h
    injection h2 with h1 _
    exact Or.inl ⟨_, h1.symm⟩
  | symbol q =>
    have h2 : Outcome.err (Obj.newError "cannot call non-function") s
        = Outcome.err e s2 := h
    injection h2 with h1 _
    exact Or.inl ⟨_, h1.symm⟩
  | list q =>
    have h2 : Outcome.err (Obj.newError "cannot call non-function") s
        = Outcome.err e s2 := h
    injection h2 with h1 _
    exact Or.inl ⟨_, h1.symm⟩
  | error q =>
    have h2 : Outcome.err (Obj.newError "cannot call non-function") s
        = Outcome.err e s2 := h
    injection h2 with h1 _
    exact Or.inl ⟨_, h1.symm⟩

/-- Definitional unfolding of `eval` on a successor fuel and a non-empty
List expression, for rewriting in hypotheses. -/
theorem eval_succ_cons (fuel : Nat) (first : Obj) (rest : List Obj)
    (env : Nat) (s : EnvState) :
    eval (fuel + 1) (Obj.list (first :: rest)) env s =
      if isDefinition (first :: rest) then
        makeDefinitionW (fun e n st => eval fuel e n st) (first :: rest) env s
      else if isLambda (first :: rest) then makeLambda (first :: rest) env s
      else
        match eval fuel first env s with
        | Outcome.ok procv s1 =>
          match evalArgsW (fun e n st => eval fuel e n st) rest env s1 with
          | ArgsOut.ok args s2 =>
            applyW (fun e n st => eval fuel e n st) procv args s2
          | ArgsOut.err e s2 => Outcome.err e s2
          | ArgsOut.fault m => Outcome.fault m
          | ArgsOut.spin => Outcome.spin
        | Outcome.err e s1 => Outcome.err e s1
        | Outcome.fault m => Outcome.fault m
        | Outcome.spin => Outcome.spin := rfl

/-- C2, counterexample: `minus` applied to `(- 1 <nil>)` fails carrying
`Object::Nil` — not an `Error(message)` — as the `Err` payload, refuting
the claim that every core-operation failure carries an `Error` value. -/
theorem c2_minus_err_payload_is_nil :
    minusFn [Obj.integer 1, Obj.nil] = Except.error Obj.nil := rfl

/-- C2, amended: every failure payload produced by the natives or by the
evaluator (special forms and application included) is an `Error(message)`
value, except that `minus` with a non-Integer argument after the first and
`multiply` with a non-Integer argument carry `Err(Object::Nil)`. -/
theorem c2_err_payloads_error_or_nil :
    (∀ (f : NativeFn) (args : List Obj) (e : Obj),
      applyNative f args = Except.error e → errPayloadOk e)
    ∧ (∀ (fuel : Nat) (exp : Obj) (env : Nat) (s : EnvState) (e : Obj)
        (s2 : EnvState),
      eval fuel exp env s = Outcome.err e s2 → errPayloadOk e) := by
  constructor
  · exact applyNative_err
  · intro fuel
    induction fuel with
    | zero => intro exp env s e s2 h; exact Outcome.noConfusion h
    | succ fuel ih =>
      intro exp env s e s2 h
      cases exp with
      | nil => exact Outcome.noConfusion h
      | integer n => exact Outcome.noConfusion h
      | callable f => exact Outcome.noConfusion h
      | error m => exact Outcome.noConfusion h
      | symbol name => exact Outcome.noConfusion h
      | list elems =>
        cases elems with
        | nil => exact Outcome.noConfusion h
        | cons first rest =>
          rw [eval_succ_cons] at h
          by_cases hd : isDefinition (first :: rest)
          · rw [if_pos hd] at h
            exact makeDefinitionW_err _ ih (first :: rest) env s e s2 h
          · rw [if_neg hd] at h
            by_cases hl : isLambda (first :: rest)
            · rw [if_pos hl] at h
              exact makeLambda_err (first :: rest) env s e s2 h
            · rw [if_neg hl] at h
              cases he : eval fuel first env s with
              | ok procv s1 =>
                rw [he] at h
                dsimp only at h
                cases ha : evalArgsW (fun e n st => eval fuel e n st) rest env s1 with
                | ok args s2b =>
                  rw [ha] at h
                  exact applyW_err _ ih procv args s2b e s2 h
                | err e2 s2b =>
                  rw [ha] at h
                  have h2 : Outcome.err e2 s2b = Outcome.err e s2 := h
                  injection h2 with h1 _
                  exact h1 ▸ evalArgsW_err _ ih rest env s1 e2 s2b ha
                | fault m => rw [ha] at h; exact Outcome.noConfusion h
                | spin => rw [ha] at h; exact Outcome.noConfusion h
              | err e2 s1 =>
                rw [he] at h
                have h2 : Outcome.err e2 s1 = Outcome.err e s2 := h
                injection h2 with h1 _
                exact h1 ▸ ih first env s e2 s1 he
              | fault m => rw [he] at h; exact Outcome.noConfusion h
              | spin => rw [he] at h; exact Outcome.noConfusion h

/-- C2, witness: the amended theorem's evaluator half at `(1)`, whose
failure payload is the `Error` value `cannot call non-function`. -/
theorem c2_witness : errPayloadOk (Obj.error "cannot call non-function") :=
  c2_err_payloads_error_or_nil.2 2 (Obj.list [Obj.integer 1]) 0 rootState
    (Obj.error "cannot call non-function") rootState rfl

/-- C3, code bug: the Object `List[1, List[2], 3]` is produced by `read`
from the input `(1 (2 ) 3)`, its canonical rendering is `(1 (2) 3)`, and
reading that rendering back yields the differently-structured
`List[1, List[2, 3]]`: `read_integer`'s unconditional trailing
`lexer.next()` (src/reader.rs line 22) swallows the `)` after a numeral,
so the round-trip property fails for Lists. -/
theorem c3_round_trip_failure :
    read "(1 (2 ) 3)".toList
      = ReadResult.ok [Obj.list [Obj.integer 1, Obj.list [Obj.integer 2], Obj.integer 3]]
    ∧ display (Obj.list [Obj.integer 1, Obj.list [Obj.integer 2], Obj.integer 3])
      = "(1 (2) 3)"
    ∧ read (display (Obj.list [Obj.integer 1, Obj.list [Obj.integer 2], Obj.integer 3])).toList
      = ReadResult.ok [Obj.list [Obj.integer 1, Obj.list [Obj.integer 2, Obj.integer 3]]]
    ∧ Obj.list [Obj.integer 1, Obj.list [Obj.integer 2], Obj.integer 3]
      ≠ Obj.list [Obj.integer 1, Obj.list [Obj.integer 2, Obj.integer 3]] :=
  ⟨rfl, rfl, rfl, by simp⟩

/-- C4, counterexample: the unterminated list `(1` is not surfaced as a
failure — `read` returns `Ok` with the open list silently closed at end of
input, refuting the claim that an unterminated list yields an `Err`. -/
theorem c4_unterminated_list_is_ok :
    read "(1".toList = ReadResult.ok [Obj.list [Obj.integer 1]] := rfl

/-- C4, amended: (i) every unexpected character — any character that is
neither an ASCII digit, `(`, a valid symbol character, nor whitespace —
at the start of the input makes `read` fail with the descriptive
`unexpected character` message, whatever follows it; (ii) the same holds
at every token-dispatch site, at any fuel: `read_object`, through which
both the top-level loop and the list-element loop route every token start,
fails on every such character; (iii) an unterminated list is never an
error: whenever the element loop of `read_list` reaches end of input,
whatever elements it has accumulated, it returns `Ok` with the open list
silently closed; (iv) the malformed-number failure of `read_integer`
arises only when its first character is not a digit, which `read_object`'s
digit dispatch rules out; (v) `read` never panics: on every input it
delivers the Rust `Result` — the model's fuel-exhaustion artifact is
unreachable at the fuel `read` supplies. -/
theorem c4_reader_failure_modes :
    (∀ (c : Char) (rest : List Char),
        (48 ≤ c.toNat && c.toNat ≤ 57) = false → (c == '(') = false →
        validSymbolChar c = false → isWs c = false →
        read (c :: rest) = ReadResult.fail "unexpected character")
    ∧ (∀ (fuel : Nat) (c : Char) (rest : List Char),
        (48 ≤ c.toNat && c.toNat ≤ 57) = false → (c == '(') = false →
        validSymbolChar c = false →
        readObject (fuel + 1) (c :: rest) = ReadResult.fail "unexpected character")
    ∧ (∀ (fuel : Nat) (acc : List Obj),
        readListLoop (fuel + 1) [] acc = ReadResult.ok (Obj.list acc.reverse, []))
    ∧ (∀ (c : Char) (cs : List Char) (m : String),
        readInteger c cs = ReadResult.fail m →
        (48 ≤ c.toNat && c.toNat ≤ 57) = false)
    ∧ (∀ cs : List Char, read cs ≠ ReadResult.spin) := by
  refine ⟨?_, ?_, ?_, ?_, ?_⟩
  · intro c rest h1 h2 h3 h4
    have hread : read (c :: rest)
        = readTop (((2 * rest.length + 2) + 1) + 1) (c :: rest) [] := by
      show readTop (2 * (c :: rest).length + 2) (c :: rest) [] = _
      rw [List.length_cons]
      have he : 2 * (rest.length + 1) + 2 = ((2 * rest.length + 2) + 1) + 1 := by
        omega
      rw [he]
    rw [hread]
    have hstep : readTop (((2 * rest.length + 2) + 1) + 1) (c :: rest) [] =
        (if isWs c then readTop ((2 * rest.length + 2) + 1) rest []
         else
           match readObject ((2 * rest.length + 2) + 1) (c :: rest) with
           | ReadResult.ok (o, rest2) =>
             readTop ((2 * rest.length + 2) + 1) rest2 (o :: [])
           | ReadResult.fail e => ReadResult.fail e
           | ReadResult.spin => ReadResult.spin) := rfl
    rw [hstep, if_neg (bool_ne_true h4),
      readObject_bad (2 * rest.length + 2) c rest h1 h2 h3]
  · intro fuel c rest h1 h2 h3
    exact readObject_bad fuel c rest h1 h2 h3
  · intro fuel acc
    rfl
  · intro c cs m h
    by_cases h1 : (48 ≤ c.toNat && c.toNat ≤ 57) = true
    · exfalso
      have hdv : digitVal c = some ((c.toNat : Int) - 48) := by
        show (if 48 ≤ c.toNat && c.toNat ≤ 57 then some ((c.toNat : Int) - 48)
          else none) = _
        rw [if_pos h1]
      cases hil : readIntLoop ((c.toNat : Int) - 48) cs with
      | mk num r =>
        have hri : readInteger c cs = ReadResult.ok (Obj.integer num, r.drop 1) := by
          have hstep2 : readInteger c cs =
              (match digitVal c with
               | none => ReadResult.fail "error parsing number"
               | some d =>
                 match readIntLoop d cs with
                 | (number, rest2) =>
                   ReadResult.ok (Obj.integer number, rest2.drop 1)) := rfl
          rw [hstep2, hdv]
          dsimp only
          rw [hil]
        rw [hri] at h
        exact ReadResult.noConfusion h
    · exact bool_eq_false_of_ne h1
  · intro cs
    exact readTop_total (2 * cs.length + 2) cs [] (Nat.le_refl _)

/-- C4, witness: the amended theorem at the tab character (an unexpected
character, surfaced as a failure), at a non-empty accumulated list held
when input ends (returned as `Ok`), and at the unterminated input `(1`
(the supplied fuel is not exhausted). -/
theorem c4_witness :
    read ['\t'] = ReadResult.fail "unexpected character"
    ∧ readListLoop 1 [] [Obj.integer 1]
      = ReadResult.ok (Obj.list [Obj.integer 1], [])
    ∧ read "(1".toList ≠ ReadResult.spin :=
  ⟨c4_reader_failure_modes.1 '\t' [] rfl rfl rfl rfl,
   c4_reader_failure_modes.2.2.1 0 [Obj.integer 1],
   c4_reader_failure_modes.2.2.2.2 "(1".toList⟩

/-- C5: evaluating `Symbol(name)` returns `Ok(env.get(name))` — never an
`Err` — and when the name is unbound in every frame of the store the
lookup answers `Nil`, so the result is `Ok(Nil)`, not a failure. -/
theorem c5_symbol_eval_never_errs (fuel : Nat) (name : String) (env : Nat)
    (s : EnvState) :
    eval (fuel + 1) (Obj.symbol name) env s = Outcome.ok (envGet s env name) s
    ∧ ((∀ f ∈ s.frames, lookupEntries f.entries name = none) →
        envGet s env name = Obj.nil) :=
  ⟨rfl, fun h => envGetAux_unbound s name h s.frames.length env⟩

/-- C5, witness: looking up a name bound nowhere in the root environment. -/
theorem c5_witness :
    eval 1 (Obj.symbol "nowhere") 0 rootState
      = Outcome.ok (envGet rootState 0 "nowhere") rootState
    ∧ envGet rootState 0 "nowhere" = Obj.nil :=
  ⟨(c5_symbol_eval_never_errs 0 "nowhere" 0 rootState).1,
   (c5_symbol_eval_never_errs 0 "nowhere" 0 rootState).2
     (by
       intro f hf
       simp [rootState, rootEntries] at hf
       rw [hf]
       rfl)⟩

/-- C6: `define` rewrites only the targeted frame — every other frame of
the store (ancestors included) is unchanged — the targeted frame keeps its
parent link and now locally maps the key to the new value, and
`new_child`, the only other operation building environments, leaves every
existing frame untouched. -/
theorem c6_define_mutates_local_frame_only (s : EnvState) (id : Nat)
    (key : String) (v : Obj) :
    (∀ j, j ≠ id → (defineState s id key v).frames.get? j = s.frames.get? j)
    ∧ (∀ f, s.frames.get? id = some f →
        (defineState s id key v).frames.get? id
          = some { parent := f.parent, entries := insertEntry key v f.entries }
        ∧ lookupEntries (insertEntry key v f.entries) key = some v)
    ∧ (∀ p j, j < s.frames.length →
        (newChildState s p).snd.frames.get? j = s.frames.get? j) := by
  refine ⟨?_, ?_, ?_⟩
  · intro j hj
    rw [defineState]
    cases hf : s.frames.get? id with
    | none => rfl
    | some f => exact set_get?_other s.frames id j _ (fun h => hj h.symm)
  · intro f hf
    constructor
    · rw [defineState, hf]
      exact set_get?_same s.frames id _ f hf
    · simp [insertEntry, lookupEntries]
  · intro p j hj
    exact append_get?_left s.frames _ j hj

/-- C6, witness: a child frame over a root that already binds `x`; after
`define x 99` on the child, the root frame is untouched, and the child's
local entries now hold `x ↦ 99`. -/
theorem c6_witness :
    (defineState
        { frames := [{ parent := none, entries := [("x", Obj.integer 5)] },
                     { parent := some 0, entries := [] }] }
        1 "x" (Obj.integer 99)).frames.get? 0
      = some { parent := none, entries := [("x", Obj.integer 5)] }
    ∧ (defineState
        { frames := [{ parent := none, entries := [("x", Obj.integer 5)] },
                     { parent := some 0, entries := [] }] }
        1 "x" (Obj.integer 99)).frames.get? 1
      = some { parent := some 0, entries := [("x", Obj.integer 99)] } := by
  constructor
  · exact (c6_define_mutates_local_frame_only
      { frames := [{ parent := none, entries := [("x", Obj.integer 5)] },
                   { parent := some 0, entries := [] }] }
      1 "x" (Obj.integer 99)).1 0 (by decide)
  · exact ((c6_define_mutates_local_frame_only
      { frames := [{ parent := none, entries := [("x", Obj.integer 5)] },
                   { parent := some 0, entries := [] }] }
      1 "x" (Obj.integer 99)).2.1 { parent := some 0, entries := [] } rfl).1

/-- C7, counterexample: `(lambda (1) 2)` — the parameter list is a List
whose element is not a Symbol — evaluates successfully to a closure
instead of failing with `arguments are not a list`, refuting the claim
that a lambda form succeeds only when every formal parameter is a
Symbol. -/
theorem c7_non_symbol_params_accepted :
    eval 1 (Obj.list [Obj.symbol "lambda", Obj.list [Obj.integer 1], Obj.integer 2]) 0 rootState
      = Outcome.ok (Obj.callable (Funct.lambda [Obj.integer 1] [Obj.integer 2] 0)) rootState :=
  rfl

/-- C7, amended: for a lambda form of at least three elements, evaluation
fails with `arguments are not a list` exactly when the second element is
not a List at all; when it is a List — whatever its elements, Symbols or
not — evaluation succeeds with the closure capturing those parameters,
the third element as sole body, and the current environment. -/
theorem c7_lambda_checks_list_only (fuel : Nat) (env : Nat) (s : EnvState)
    (a b : Obj) (rest : List Obj) :
    (∀ ps, a = Obj.list ps →
      eval (fuel + 1) (Obj.list (Obj.symbol "lambda" :: a :: b :: rest)) env s
        = Outcome.ok (Obj.callable (Funct.lambda ps [b] env)) s)
    ∧ ((∀ ps, a ≠ Obj.list ps) →
      eval (fuel + 1) (Obj.list (Obj.symbol "lambda" :: a :: b :: rest)) env s
        = Outcome.err (Obj.error "arguments are not a list") s) := by
  constructor
  · intro ps hps
    subst hps
    rfl
  · intro hps
    cases a with
    | list q => exact absurd rfl (hps q)
    | nil => rfl
    | integer q => rfl
    | symbol q => rfl
    | callable q => rfl
    | error q => rfl

/-- C7, witness: the amended theorem at `(lambda 7 2)` — a non-List second
element fails — and at `(lambda (1) 2)` — a List of non-Symbols
succeeds. -/
theorem c7_witness :
    eval 1 (Obj.list [Obj.symbol "lambda", Obj.integer 7, Obj.integer 2]) 0 rootState
      = Outcome.err (Obj.error "arguments are not a list") rootState
    ∧ eval 1 (Obj.list [Obj.symbol "lambda", Obj.list [Obj.integer 1], Obj.integer 2]) 0 rootState
      = Outcome.ok (Obj.callable (Funct.lambda [Obj.integer 1] [Obj.integer 2] 0)) rootState :=
  ⟨(c7_lambda_checks_list_only 0 0 rootState (Obj.integer 7) (Obj.integer 2) []).2
      (fun _ h => Obj.noConfusion h),
   (c7_lambda_checks_list_only 0 0 rootState (Obj.list [Obj.integer 1]) (Obj.integer 2) []).1
      [Obj.integer 1] rfl⟩

/-- C8: Nil, Integer and Error are self-evaluating — `eval` returns them
unchanged inside `Ok` for any environment and any store. -/
theorem c8_self_evaluation_identity (fuel : Nat) (n : Int) (m : String)
    (env : Nat) (s : EnvState) :
    eval (fuel + 1) Obj.nil env s = Outcome.ok Obj.nil s
    ∧ eval (fuel + 1) (Obj.integer n) env s = Outcome.ok (Obj.integer n) s
    ∧ eval (fuel + 1) (Obj.error m) env s = Outcome.ok (Obj.error m) s :=
  ⟨rfl, rfl, rfl⟩

/-- C9: evaluating the empty List never reaches a `Result` — the
application path takes `iter.next().unwrap()` on an empty iterator and
panics, for every environment and store. -/
theorem c9_empty_list_faults (fuel : Nat) (env : Nat) (s : EnvState) :
    eval (fuel + 1) (Obj.list []) env s = Outcome.fault "unwrap on None" :=
  rfl

/-- C10, counterexample: `(define 5)` has fewer than three elements, yet
`eval` does not fault — the non-Symbol second element is rejected with the
error `Result` `argument has wrong type` before the third element is ever
indexed, refuting the claim that every short `define`/`lambda` form
faults. -/
theorem c10_short_define_can_err :
    eval 1 (Obj.list [Obj.symbol "define", Obj.integer 5]) 0 rootState
      = Outcome.err (Obj.error "argument has wrong type") rootState := rfl

/-- C10, amended: a `define`/`lambda` form with fewer than three elements
faults by out-of-bounds indexing when the missing element is the one
indexed — always for the one-element forms `(define)` and `(lambda)`, and
for the two-element forms exactly when the second element passes the
form's shape check (a Symbol for `define`, a List for `lambda`); a
two-element form whose second element fails the shape check returns the
form's type-error `Result` instead of faulting. -/
theorem c10_short_forms_fault_or_err (fuel : Nat) (env : Nat) (s : EnvState) :
    eval (fuel + 1) (Obj.list [Obj.symbol "define"]) env s
      = Outcome.fault "index out of bounds"
    ∧ (∀ name, eval (fuel + 1) (Obj.list [Obj.symbol "define", Obj.symbol name]) env s
      = Outcome.fault "index out of bounds")
    ∧ eval (fuel + 1) (Obj.list [Obj.symbol "lambda"]) env s
      = Outcome.fault "index out of bounds"
    ∧ (∀ ps, eval (fuel + 1) (Obj.list [Obj.symbol "lambda", Obj.list ps]) env s
      = Outcome.fault "index out of bounds")
    ∧ (∀ a, (∀ n2, a ≠ Obj.symbol n2) →
      eval (fuel + 1) (Obj.list [Obj.symbol "define", a]) env s
        = Outcome.err (Obj.error "argument has wrong type") s)
    ∧ (∀ a, (∀ ps, a ≠ Obj.list ps) →
      eval (fuel + 1) (Obj.list [Obj.symbol "lambda", a]) env s
        = Outcome.err (Obj.error "arguments are not a list") s) := by
  refine ⟨rfl, fun _ => rfl, rfl, fun _ => rfl, ?_, ?_⟩
  · intro a ha
    cases a with
    | symbol q => exact absurd rfl (ha q)
    | nil => rfl
    | integer q => rfl
    | list q => rfl
    | callable q => rfl
    | error q => rfl
  · intro a ha
    cases a with
    | list q => exact absurd rfl (ha q)
    | nil => rfl
    | integer q => rfl
    | symbol q => rfl
    | callable q => rfl
    | error q => rfl

/-- C10, witness: the amended theorem at `(define x)` (faults) and at
`(define <nil>)` (type error instead of a fault). -/
theorem c10_witness :
    eval 1 (Obj.list [Obj.symbol "define", Obj.symbol "x"]) 0 rootState
      = Outcome.fault "index out of bounds"
    ∧ eval 1 (Obj.list [Obj.symbol "define", Obj.nil]) 0 rootState
      = Outcome.err (Obj.error "argument has wrong type") rootState :=
  ⟨(c10_short_forms_fault_or_err 0 0 rootState).2.1 "x",
   (c10_short_forms_fault_or_err 0 0 rootState).2.2.2.2.1 Obj.nil
     (fun _ h => Obj.noConfusion h)⟩

end Risp
